import Mathlib

/-!
Verification development for the data-cleaning / filtering / map-rendering
pipeline of `generador_graficas.py`.

The table model is a shallow embedding of a pandas DataFrame as it is used by
the script: a list of rows, each row a list of cells.  A cell is either a
numeric value (floats are modelled as rationals; the script only compares,
scales and averages them, so the arithmetic is exact on every reachable
input), a string, or the pandas missing-value marker `NaN`.
-/

set_option maxHeartbeats 1000000

/-- One cell of the uploaded table: a float (`NaN` excluded), a string, or the
pandas missing-value marker. -/
inductive Cell where
  | missing : Cell
  | num : ℚ → Cell
  | str : String → Cell
deriving DecidableEq, Repr

/-- A row of the table, one cell per column. -/
abbrev Row := List Cell

/-- The in-memory table: a list of rows. -/
abbrev Table := List Row

/-- Column access `row[col]`.  The script only ever uses columns offered by the
UI, which all exist; out-of-range access is given the harmless default
`missing`. -/
def getCol (r : Row) (col : ℕ) : Cell :=
  r.getD col Cell.missing

/-- Line 74 of the source, per cell:
`df.replace([np.nan, 'nan', 'NaN', ''], 'No especificado')`. -/
def cleanCell (c : Cell) : Cell :=
  match c with
  | Cell.missing => Cell.str "No especificado"
  | Cell.str s =>
      if s = "nan" ∨ s = "NaN" ∨ s = "" then Cell.str "No especificado" else Cell.str s
  | Cell.num q => Cell.num q

/-- Line 74 of the source applied to the whole table. -/
def cleanTable (t : Table) : Table :=
  t.map (fun r => r.map cleanCell)

/-- The three options of the `filtro_lluvia` radio widget (lines 337-340). -/
inductive FilterMode where
  | showAll : FilterMode
  | rainOnly : FilterMode
  | excludeRain : FilterMode
deriving DecidableEq, Repr

/-- Lines 383-392 of the source: `map_df = df.copy()`, then
`map_df[map_df[lluvia_col] == "si"]` for rain-only and
`map_df[map_df[lluvia_col] != "si"]` for exclude-rain.  The comparison is the
pandas elementwise `== "si"`: exact string equality, no lower-casing, no
trimming. -/
def filterRain (mode : FilterMode) (col : ℕ) (t : Table) : Table :=
  match mode with
  | FilterMode.showAll => t
  | FilterMode.rainOnly => t.filter (fun r => decide (getCol r col = Cell.str "si"))
  | FilterMode.excludeRain => t.filter (fun r => decide (getCol r col ≠ Cell.str "si"))

/-- `pd.isna` on one cell. -/
def isMissingCell (c : Cell) : Bool :=
  match c with
  | Cell.missing => true
  | _ => false

/-- Lines 397-399: `map_df[col].isna().sum()`. -/
def missingCount (col : ℕ) (t : Table) : ℕ :=
  (t.filter (fun r => isMissingCell (getCol r col))).length

/-- Lines 401-404: if any latitude or longitude entry is missing, the script
runs `map_df.dropna(subset=[lat_col, lon_col])`; otherwise the table is left
alone. -/
def dropMissingCoords (latC lonC : ℕ) (t : Table) : Table :=
  if 0 < missingCount latC t ∨ 0 < missingCount lonC t then
    t.filter (fun r => !(isMissingCell (getCol r latC)) && !(isMissingCell (getCol r lonC)))
  else t

/-- The numeric value of a cell, when the cell is a float.  Strings are not
numbers for pandas aggregations (`mean`, `max`): an aggregation over a column
containing a string raises, which the caller models as `none`. -/
def cellNum (c : Cell) : Option ℚ :=
  match c with
  | Cell.num q => some q
  | _ => none

/-- All-or-nothing traversal: `some` exactly when `f` succeeds on every
element, mirroring a pandas aggregation that raises on the first bad cell. -/
def optMap (f : α → Option β) : List α → Option (List β)
  | [] => some []
  | a :: l =>
      match f a, optMap f l with
      | some b, some bs => some (b :: bs)
      | _, _ => none

/-- The cells of one column, top to bottom. -/
def colVals (col : ℕ) (t : Table) : List Cell :=
  t.map (fun r => getCol r col)

/-- `map_df[value_col].max()` (line 446) as far as the radius computation can
use it: `some` of the maximum when the column is non-empty and all-numeric,
`none` when the aggregation (or the division that consumes it) would raise. -/
def colMaxQ (col : ℕ) (t : Table) : Option ℚ :=
  match optMap cellNum (colVals col t) with
  | some (q :: qs) => some (qs.foldl max q)
  | _ => none

/-- Sum of a list of rationals. -/
def qsum : List ℚ → ℚ
  | [] => 0
  | q :: l => q + qsum l

/-- `map_df[col].mean()` (lines 410-411): `some` of the arithmetic mean when
the column is non-empty and all-numeric, `none` when pandas would raise (a
string in the column) or return `NaN` (empty column). -/
def colMean (col : ℕ) (t : Table) : Option ℚ :=
  match optMap cellNum (colVals col t) with
  | some (q :: qs) => some (qsum (q :: qs) / ((q :: qs).length : ℚ))
  | _ => none

/-- The numeric values present in a column (the denominator of the mean). -/
def numsOf (col : ℕ) (t : Table) : List ℚ :=
  (colVals col t).filterMap cellNum

/-- Arithmetic mean of the numeric values of a column. -/
def meanCol (col : ℕ) (t : Table) : ℚ :=
  qsum (numsOf col t) / ((numsOf col t).length : ℚ)

/-- Line 446 of the source:
`radius = max(heat_radius, heat_radius * (valor / map_df[value_col].max()))`. -/
def radiusCode (heatR valor colMax : ℚ) : ℚ :=
  max heatR (heatR * (valor / colMax))

/-- The marker-radius formula as the spec words it (section 4.3): linear
scaling of `value` from `[colMin, colMax]` into the configured `[minR, maxR]`,
with `dflt` for a constant column.  Stated only to be compared with the
implemented `radiusCode`. -/
def specRadius (minR maxR dflt v mn mx : ℚ) : ℚ :=
  if mx = mn then dflt else minR + (maxR - minR) * (v - mn) / (mx - mn)

/-- CPython `float(x)` (line 445, `valor = float(row[value_col])`) on a string
argument, for finite ASCII decimal literals: optional surrounding whitespace,
optional sign, digits with an optional fractional part and an optional decimal
exponent.  (`inf`/`nan` literals and digit-group underscores are outside the
inputs this development evaluates and are not modelled.)  `none` models the
`ValueError` that the bare `except` of lines 447-448 catches. -/
def isWsChar (c : Char) : Bool :=
  c.toNat = 32 || (9 ≤ c.toNat && c.toNat ≤ 13)

/-- Strip leading and trailing whitespace, as `float` does. -/
def stripWs (l : List Char) : List Char :=
  ((l.dropWhile isWsChar).reverse.dropWhile isWsChar).reverse

/-- ASCII decimal digit test. -/
def isDigitChar (c : Char) : Bool :=
  48 ≤ c.toNat && c.toNat ≤ 57

/-- Value of an ASCII digit. -/
def digitVal (c : Char) : ℕ :=
  c.toNat - 48

/-- The natural number denoted by a digit string. -/
def natOfDigits (l : List Char) : ℕ :=
  l.foldl (fun a c => 10 * a + digitVal c) 0

/-- Parse a stripped float literal into its sign, integer digits, fraction
digits and decimal exponent; `none` models `ValueError`.  See `pyFloat`. -/
def pyFloatDecomp (l : List Char) : Option (Bool × List Char × List Char × ℤ) :=
  let sl : Bool × List Char :=
    match l with
    | c :: rest => if c = '-' then (true, rest) else if c = '+' then (false, rest) else (false, l)
    | [] => (false, [])
  let neg := sl.1
  let l1 := sl.2
  let ip := l1.takeWhile isDigitChar
  let l2 := l1.dropWhile isDigitChar
  let fl : List Char × List Char :=
    match l2 with
    | c :: rest =>
        if c = '.' then (rest.takeWhile isDigitChar, rest.dropWhile isDigitChar)
        else ([], l2)
    | [] => ([], [])
  let fp := fl.1
  let l3 := fl.2
  if ip.isEmpty && fp.isEmpty then none
  else
    match l3 with
    | [] => some (neg, ip, fp, 0)
    | c :: rest =>
        if c = 'e' || c = 'E' then
          let er : Bool × List Char :=
            match rest with
            | d :: rr => if d = '-' then (true, rr) else if d = '+' then (false, rr) else (false, rest)
            | [] => (false, [])
          let ed := er.2.takeWhile isDigitChar
          let r3 := er.2.dropWhile isDigitChar
          if ed.isEmpty || !r3.isEmpty then none
          else some (neg, ip, fp, (if er.1 then -1 else 1) * (natOfDigits ed : ℤ))
        else none

/-- The rational denoted by a parsed float literal. -/
def pyFloatVal (d : Bool × List Char × List Char × ℤ) : ℚ :=
  (if d.1 then (-1 : ℚ) else 1) *
    ((natOfDigits d.2.1 : ℚ) + (natOfDigits d.2.2.1 : ℚ) / (10 : ℚ) ^ (d.2.2.1).length) *
    (10 : ℚ) ^ d.2.2.2

/-- CPython `float` on a string, see `pyFloatDecomp`. -/
def pyFloat (s : String) : Option ℚ :=
  (pyFloatDecomp (stripWs s.data)).map pyFloatVal

/-- `float(cell)` for one cell: a float passes through, a string goes through
`float`-parsing, and `float(np.nan)` yields `NaN`, which the radius arithmetic
then collapses to the fallback exactly like a raised error, so it is folded
into `none`. -/
def cellFloat (c : Cell) : Option ℚ :=
  match c with
  | Cell.num q => some q
  | Cell.str s => pyFloat s
  | Cell.missing => none

/-- Lines 444-448 of the source: inside `try`, `valor = float(row[value_col])`
and `radius = max(heat_radius, heat_radius * (valor / map_df[value_col].max()))`;
any failure falls back to `radius = heat_radius`. -/
def rowRadius (heatR : ℚ) (valC : ℕ) (r : Row) (t : Table) : ℚ :=
  match cellFloat (getCol r valC), colMaxQ valC t with
  | some v, some m => radiusCode heatR v m
  | _, _ => heatR

/-- One `folium.CircleMarker` of the marker loop (lines 442-470). -/
structure Marker where
  lat : ℚ
  lon : ℚ
  radius : ℚ
deriving DecidableEq, Repr

/-- One iteration of the marker loop: the popup text formats the coordinates
with `{row[lat_col]:.4f}`, which raises on a non-float cell and aborts the
whole `try` block, so a marker exists only when both coordinates are floats. -/
def rowMarker (latC lonC valC : ℕ) (heatR : ℚ) (t : Table) (r : Row) : Option Marker :=
  match getCol r latC, getCol r lonC with
  | Cell.num la, Cell.num lo => some ⟨la, lo, rowRadius heatR valC r t⟩
  | _, _ => none

/-- The marker loop over the whole table, all-or-nothing because a raise on
any row aborts the surrounding `try` (lines 408-518). -/
def renderMarkers (latC lonC valC : ℕ) (heatR : ℚ) (t : Table) : Option (List Marker) :=
  optMap (rowMarker latC lonC valC heatR t) t

/-- Outcome of one render attempt of the geographic heat map. -/
inductive MapOutcome where
  | rendered : ℚ → ℚ → List Marker → MapOutcome
  | renderFailed : MapOutcome
  | noData : MapOutcome
deriving DecidableEq, Repr

/-- Lines 383-523 of the source: clean table (line 74 runs at upload), apply
the manual rain filter, and either report the explicit no-data error (lines
519-521), or attempt the render: count and conditionally drop missing
coordinates, take the column means for the map center, and build one marker
per row; any exception inside the `try` is caught by line 517-518
(`renderFailed`). -/
def mapPipeline (latC lonC valC lluviaC : ℕ) (mode : FilterMode) (heatR : ℚ)
    (df0 : Table) : MapOutcome :=
  let df := cleanTable df0
  let m := filterRain mode lluviaC df
  if m.isEmpty then MapOutcome.noData
  else
    let m2 := dropMissingCoords latC lonC m
    match colMean latC m2, colMean lonC m2 with
    | some la, some lo =>
        match renderMarkers latC lonC valC heatR m2 with
        | some ms => MapOutcome.rendered la lo ms
        | none => MapOutcome.renderFailed
    | _, _ => MapOutcome.renderFailed

/-- Lines 28-36 of the source, `fig.write_image(...)`: fails when the optional
image-encoding backend (kaleido) is absent.  The function body has no handler,
so the exception escapes `get_image_download_link`. -/
def write_image (kaleidoOk : Bool) (figPng : String) : Except String String :=
  if kaleidoOk then Except.ok figPng else Except.error "write_image requires the kaleido package"

/-- Lines 28-36 of the source: encode the figure to PNG and wrap it in a
download anchor; no `try`/`except` anywhere in the function. -/
def get_image_download_link (kaleidoOk : Bool) (filename : String) : Except String String :=
  (write_image kaleidoOk "png-bytes").map
    (fun bytes => "<a download>" ++ filename ++ ":" ++ bytes ++ "</a>")

/-- The chart download section (for example lines 566-571): it calls
`get_image_download_link` directly, with no handler, so a PNG failure
propagates out of the render attempt. -/
def chartDownloadSection (kaleidoOk : Bool) (filename : String) : Except String String :=
  get_image_download_link kaleidoOk filename

/-- The CSV delimiter. -/
def commaC : Char := Char.ofNat 44

/-- The CSV quote character. -/
def quoteC : Char := Char.ofNat 34

/-- The CSV record terminator written by `to_csv`. -/
def nlC : Char := Char.ofNat 10

/-- Carriage return, also forcing quoting. -/
def crC : Char := Char.ofNat 13

/-- Modelled from the spec: the CSV export/re-parse round trip of lines
497-505 (`map_df.to_csv(index=False)` and a `pd.read_csv` of the produced
bytes).  The serializer/parser pair itself is pandas library code, absent from
`src/`, so it is modelled after the spec words (section 6 and section 8) as
standard minimal-quoting CSV: a field is quoted exactly when it contains the
delimiter, the quote, or a line break, quotes are doubled inside quoted
fields, and every record ends with a newline.  `needsQuote` decides whether a
field must be quoted. -/
def needsQuote (f : List Char) : Bool :=
  f.any (fun c => c = commaC || c = quoteC || c = nlC || c = crC)

/-- Double every quote of a field body (CSV escaping). -/
def escField : List Char → List Char
  | [] => []
  | c :: f => if c = quoteC then quoteC :: quoteC :: escField f else c :: escField f

/-- Render one field with minimal quoting. -/
def renderField (f : List Char) : List Char :=
  if needsQuote f then quoteC :: (escField f ++ [quoteC]) else f

/-- Render the fields of one record, comma-separated. -/
def renderFields : List (List Char) → List Char
  | [] => []
  | [f] => renderField f
  | f :: g :: fs => renderField f ++ commaC :: renderFields (g :: fs)

/-- Render a list of records, each terminated by a newline, as `to_csv`
does. -/
def renderCsv : List (List (List Char)) → List Char
  | [] => []
  | r :: rs => (renderFields r ++ [nlC]) ++ renderCsv rs

mutual

/-- CSV reader, inside an unquoted region of a field (also the start of a
field when the accumulator `fa` is empty).  `fa` is the current field reversed,
`ra` the completed fields of the current record, reversed. -/
def pUnq (input : List Char) (fa : List Char) (ra : List (List Char)) :
    List (List (List Char)) :=
  match input with
  | [] => [(fa.reverse :: ra).reverse]
  | c :: rest =>
      if c = commaC then pUnq rest [] (fa.reverse :: ra)
      else if c = nlC then
        (fa.reverse :: ra).reverse ::
          (match rest with
           | [] => []
           | d :: rest2 => pUnq (d :: rest2) [] [])
      else if c = quoteC then
        (match fa with
         | [] => pQ rest [] ra
         | e :: fa2 => pUnq rest (quoteC :: e :: fa2) ra)
      else pUnq rest (c :: fa) ra
termination_by input.length
decreasing_by all_goals (first | (simp [List.length_cons]; omega) | simp [List.length_cons] | omega)

/-- CSV reader, inside a quoted field: a doubled quote is a literal quote, a
single quote closes the field, any other character is literal. -/
def pQ (input : List Char) (fa : List Char) (ra : List (List Char)) :
    List (List (List Char)) :=
  match input with
  | [] => [(fa.reverse :: ra).reverse]
  | c :: rest =>
      if c = quoteC then
        match rest with
        | [] => pUnq [] fa ra
        | c2 :: rest2 =>
            if c2 = quoteC then pQ rest2 (quoteC :: fa) ra
            else pUnq (c2 :: rest2) fa ra
      else pQ rest (c :: fa) ra
termination_by input.length
decreasing_by all_goals (first | (simp [List.length_cons]; omega) | simp [List.length_cons] | omega)

end

/-- Parse a CSV text into its records; the empty text has no records. -/
def parseCsv (l : List Char) : List (List (List Char)) :=
  match l with
  | [] => []
  | c :: rest => pUnq (c :: rest) [] []

/-- `map_df.to_csv(index=False)` (line 499): the header record (the column
names) followed by the data records. -/
def csvOfTable (header : List (List Char)) (rows : List (List (List Char))) :
    List Char :=
  renderCsv (header :: rows)

/-- Re-parsing the CSV bytes: the first record is the header, the rest are the
data rows; an empty text has no table. -/
def tableOfCsv (l : List Char) : Option (List (List Char) × List (List (List Char))) :=
  match parseCsv l with
  | [] => none
  | h :: rs => some (h, rs)

/-- The predicate used by the quoted-field consumption lemma: the continuation
does not begin with a quote (after a rendered field the next character is a
comma or a newline). -/
def headNotQuote : List Char → Prop
  | [] => True
  | c :: _ => c ≠ quoteC

/-- The rain-flag example column of the spec (section 8): values
`["si", "No", "", "NaN", "SI"]`, one column per row. -/
def tC1 : Table :=
  [[Cell.str "si"], [Cell.str "No"], [Cell.str ""], [Cell.str "NaN"], [Cell.str "SI"]]

/-- A table whose second row has a missing latitude (column 0); columns are
latitude, longitude, value. -/
def tC4 : Table :=
  [[Cell.num 19, Cell.num (-99), Cell.num 5],
   [Cell.missing, Cell.num (-99), Cell.num 7]]

/-- A table whose single row is not a rain report (rain flag in column 0,
then latitude, longitude, value): rain-only filtering empties it. -/
def tC5a : Table :=
  [[Cell.str "No", Cell.num 19, Cell.num (-99), Cell.num 5]]

/-- A table with one valid coordinate row and one row whose latitude cell is a
non-numeric string; columns are latitude, longitude, value. -/
def tC5b : Table :=
  [[Cell.num 19, Cell.num (-99), Cell.num 5],
   [Cell.str "19,4", Cell.num (-99), Cell.num 7]]

/-- Every entry of a column is a float (`True` on the tables the script reaches
for the latitude/longitude columns of a successfully rendered map). -/
def allNumCol (col : ℕ) (t : Table) : Bool :=
  t.all (fun r => (cellNum (getCol r col)).isSome)

/-- `cleanCell` never returns the missing marker, the empty string, or a `nan`
spelling. -/
theorem cleanCell_safe (c : Cell) :
    cleanCell c ≠ Cell.missing ∧ cleanCell c ≠ Cell.str "" ∧
    cleanCell c ≠ Cell.str "nan" ∧ cleanCell c ≠ Cell.str "NaN" := by
  cases c with
  | missing => exact ⟨by decide, by decide, by decide, by decide⟩
  | num q => exact ⟨by simp [cleanCell], by simp [cleanCell], by simp [cleanCell], by simp [cleanCell]⟩
  | str s =>
    simp only [cleanCell]
    by_cases h : s = "nan" ∨ s = "NaN" ∨ s = ""
    · rw [if_pos h]
      exact ⟨by decide, by decide, by decide, by decide⟩
    · rw [if_neg h]
      push_neg at h
      obtain ⟨h1, h2, h3⟩ := h
      exact ⟨by simp, by simpa using h3, by simpa using h1, by simpa using h2⟩

/-- A cell of an all-float column is a float. -/
theorem getNum_of_allNum {col : ℕ} {t : Table} {r : Row}
    (h : allNumCol col t = true) (hr : r ∈ t) : ∃ q, getCol r col = Cell.num q := by
  simp only [allNumCol, List.all_eq_true] at h
  have hs := h r hr
  cases hc : getCol r col with
  | num q => exact ⟨q, rfl⟩
  | missing => rw [hc] at hs; simp [cellNum] at hs
  | str s => rw [hc] at hs; simp [cellNum] at hs

/-- When every element maps to `some`, `optMap` succeeds with the
`filterMap`. -/
theorem optMap_cellNum_allSome :
    ∀ (cl : List Cell), (∀ c ∈ cl, (cellNum c).isSome = true) →
      optMap cellNum cl = some (cl.filterMap cellNum) := by
  intro cl
  induction cl with
  | nil => intro; rfl
  | cons c cl ih =>
    intro h
    obtain ⟨q, hq⟩ := Option.isSome_iff_exists.mp (h c (List.mem_cons_self c cl))
    rw [List.filterMap_cons]
    simp only [optMap, hq, ih (fun x hx => h x (List.mem_cons_of_mem c hx))]

/-- When every element maps to `some`, `optMap` succeeds. -/
theorem optMap_isSome_of_forall {α β : Type} (f : α → Option β) :
    ∀ (l : List α), (∀ a ∈ l, (f a).isSome = true) →
      ∃ bs, optMap f l = some bs := by
  intro l
  induction l with
  | nil => intro; exact ⟨[], rfl⟩
  | cons a l ih =>
    intro h
    obtain ⟨b, hb⟩ := Option.isSome_iff_exists.mp (h a (List.mem_cons_self a l))
    obtain ⟨bs, hbs⟩ := ih (fun x hx => h x (List.mem_cons_of_mem a hx))
    exact ⟨b :: bs, by simp only [optMap, hb, hbs]⟩

/-- An all-float column has no missing entries. -/
theorem missingCount_zero_of_allNum {col : ℕ} {t : Table}
    (h : allNumCol col t = true) : missingCount col t = 0 := by
  unfold missingCount
  rw [List.length_eq_zero]
  rw [List.filter_eq_nil]
  intro r hr
  obtain ⟨q, hq⟩ := getNum_of_allNum h hr
  simp [hq, isMissingCell]

/-- On a non-empty all-float column, the pandas mean succeeds and equals the
arithmetic mean of the column's numeric values. -/
theorem colMean_of_allNum {col : ℕ} {t : Table}
    (h : allNumCol col t = true) (hne : t ≠ []) :
    colMean col t = some (meanCol col t) := by
  have hall : ∀ c ∈ colVals col t, (cellNum c).isSome = true := by
    intro c hc
    simp only [colVals, List.mem_map] at hc
    obtain ⟨r, hr, rfl⟩ := hc
    simp only [allNumCol, List.all_eq_true] at h
    exact h r hr
  have hopt := optMap_cellNum_allSome _ hall
  unfold colMean meanCol numsOf
  cases hnn : (colVals col t).filterMap cellNum with
  | nil =>
    exfalso
    cases t with
    | nil => exact hne rfl
    | cons r t2 =>
      obtain ⟨q, hq⟩ := Option.isSome_iff_exists.mp
        (hall (getCol r col) (by simp [colVals]))
      simp [colVals, List.filterMap_cons, hq] at hnn
  | cons q qs =>
    rw [hopt, hnn]

/-- A non-empty list is not `isEmpty`. -/
theorem isEmpty_false_of_ne {α : Type} {l : List α} (h : l ≠ []) :
    l.isEmpty = false := by
  cases l with
  | nil => exact absurd rfl h
  | cons a l2 => rfl

/-- The marker loop succeeds when both coordinate columns are all-float. -/
theorem renderMarkers_some_of (latC lonC valC : ℕ) (heatR : ℚ) {t : Table}
    (hlat : allNumCol latC t = true) (hlon : allNumCol lonC t = true) :
    ∃ ms, renderMarkers latC lonC valC heatR t = some ms := by
  unfold renderMarkers
  apply optMap_isSome_of_forall
  intro r hr
  obtain ⟨qa, ha⟩ := getNum_of_allNum hlat hr
  obtain ⟨qb, hb⟩ := getNum_of_allNum hlon hr
  simp [rowMarker, ha, hb]

/-- Claim C1, counterexample.  On the spec's own example column
`["si", "No", "", "NaN", "SI"]`, rain-only filtering keeps 1 of the 5 rows,
not the claimed 2: the comparison of line 386 is exact string equality with
`"si"`, so the `"SI"` row is not selected. -/
theorem c1_counterexample :
    (filterRain FilterMode.rainOnly 0 (cleanTable tC1)).length = 1 ∧
    (filterRain FilterMode.rainOnly 0 (cleanTable tC1)).length ≠ 2 ∧
    [Cell.str "SI"] ∉ filterRain FilterMode.rainOnly 0 (cleanTable tC1) := by
  exact ⟨by decide, by decide, by decide⟩

/-- Claim C1, amended.  Rain-only filtering selects exactly the rows whose
rain-flag cell is the exact string `"si"` (case-sensitive, untrimmed; empty
and `NaN` flags have already been replaced by `"No especificado"` at load
time); on the example column `["si", "No", "", "NaN", "SI"]` it selects
exactly 1 of the 5 rows. -/
theorem c1_rain_only_exact_match :
    (∀ (t : Table) (col : ℕ) (r : Row),
        r ∈ filterRain FilterMode.rainOnly col t ↔
          r ∈ t ∧ getCol r col = Cell.str "si")
    ∧ (filterRain FilterMode.rainOnly 0 (cleanTable tC1)).length = 1 := by
  constructor
  · intro t col r
    simp [filterRain, List.mem_filter]
  · decide

/-- Claim C2, counterexample.  The value parse of line 445 is a bare
`float(...)`: there is no comma-to-dot normalization, so the cell `"19,32"`
fails to parse while `"19.32"` parses to 19.32; the two are not given the
same value. -/
theorem c2_counterexample :
    cellFloat (Cell.str "19,32") = none ∧
    cellFloat (Cell.str "19.32") = some (1932 / 100) ∧
    cellFloat (Cell.str "19,32") ≠ cellFloat (Cell.str "19.32") := by
  have hd : pyFloatDecomp (stripWs "19,32".data) = none := by decide
  have hd2 : pyFloatDecomp (stripWs "19.32".data) =
      some (false, ['1', '9'], ['3', '2'], 0) := by decide
  have h3 : natOfDigits ['1', '9'] = 19 := by decide
  have h4 : natOfDigits ['3', '2'] = 32 := by decide
  have e1 : cellFloat (Cell.str "19,32") = none := by
    show (pyFloatDecomp (stripWs "19,32".data)).map pyFloatVal = none
    rw [hd]; rfl
  have e2 : cellFloat (Cell.str "19.32") = some (1932 / 100) := by
    show (pyFloatDecomp (stripWs "19.32".data)).map pyFloatVal = some (1932 / 100)
    rw [hd2, Option.map_some']
    unfold pyFloatVal
    norm_num [h3, h4]
  refine ⟨e1, e2, ?_⟩
  rw [e1, e2]
  simp

/-- Claim C2, amended.  The value column is parsed with a bare Python
`float()`: surrounding whitespace is tolerated and dot-decimal strings parse
exactly, but comma-decimal strings are *not* normalized — they fail to parse,
and any row whose value fails to parse falls back to the configured base
radius (no error is raised and no missing-value marker is produced). -/
theorem c2_float_no_comma_fixup :
    (∀ (heatR : ℚ) (valC : ℕ) (r : Row) (t : Table),
        cellFloat (getCol r valC) = none → rowRadius heatR valC r t = heatR)
    ∧ pyFloat "19,32" = none
    ∧ pyFloat "19.32" = some (1932 / 100)
    ∧ pyFloat " 19.32 " = some (1932 / 100) := by
  have h3 : natOfDigits ['1', '9'] = 19 := by decide
  have h4 : natOfDigits ['3', '2'] = 32 := by decide
  refine ⟨?_, ?_, ?_, ?_⟩
  · intro heatR valC r t h
    simp [rowRadius, h]
  · show (pyFloatDecomp (stripWs "19,32".data)).map pyFloatVal = none
    rw [(by decide : pyFloatDecomp (stripWs "19,32".data) = none)]
    rfl
  · show (pyFloatDecomp (stripWs "19.32".data)).map pyFloatVal = some (1932 / 100)
    rw [(by decide : pyFloatDecomp (stripWs "19.32".data) =
          some (false, ['1', '9'], ['3', '2'], 0)), Option.map_some']
    unfold pyFloatVal
    norm_num [h3, h4]
  · show (pyFloatDecomp (stripWs " 19.32 ".data)).map pyFloatVal = some (1932 / 100)
    rw [(by decide : pyFloatDecomp (stripWs " 19.32 ".data) =
          some (false, ['1', '9'], ['3', '2'], 0)), Option.map_some']
    unfold pyFloatVal
    norm_num [h3, h4]

/-- Claim C2, witness: a concrete comma-decimal cell falls back to the base
radius 10. -/
theorem c2_witness :
    rowRadius 10 0 [Cell.str "19,32"] [[Cell.str "19,32"]] = 10 :=
  c2_float_no_comma_fixup.1 10 0 [Cell.str "19,32"] [[Cell.str "19,32"]]
    (by
      show (pyFloatDecomp (stripWs "19,32".data)).map pyFloatVal = none
      rw [(by decide : pyFloatDecomp (stripWs "19,32".data) = none)]
      rfl)

/-- Claim C3, counterexample.  With the configured slider range `[5, 30]` and
default 10, the claimed linear scaling maps the column `[1, 2]` to radii 5 and
30; the implemented formula of line 446 gives 10 for both rows. -/
theorem c3_counterexample :
    radiusCode 10 1 2 ≠ specRadius 5 30 10 1 1 2 ∧
    radiusCode 10 2 2 ≠ specRadius 5 30 10 2 1 2 := by
  constructor
  · norm_num [radiusCode, specRadius, max_def]
  · norm_num [radiusCode, specRadius, max_def]

/-- Claim C3, amended.  The implemented radius is
`max(heat_radius, heat_radius * value / colMax)`: for every column entry with
`0 ≤ value ≤ colMax` (in particular every entry of a column of non-negative
values, degenerate or not) the computed radius equals the configured
`heat_radius`; there is no `[minR, maxR]` linear scaling. -/
theorem c3_radius_constant_on_nonneg :
    ∀ (heatR v m : ℚ), 0 < heatR → 0 ≤ v → v ≤ m →
      radiusCode heatR v m = heatR := by
  intro heatR v m h0 hv hvm
  unfold radiusCode
  rcases eq_or_ne m 0 with hm | hm
  · subst hm
    have hv0 : v = 0 := le_antisymm hvm hv
    subst hv0
    rw [zero_div, mul_zero]
    exact max_eq_left h0.le
  · have hmpos : 0 < m := lt_of_le_of_ne (hv.trans hvm) (Ne.symm hm)
    have hle : heatR * (v / m) ≤ heatR := by
      have h1 : v / m ≤ 1 := (div_le_one hmpos).mpr hvm
      calc heatR * (v / m) ≤ heatR * 1 := mul_le_mul_of_nonneg_left h1 h0.le
        _ = heatR := mul_one heatR
    exact max_eq_left hle

/-- Claim C3, witness: the concrete radius of value 3 in a column with maximum
7 under base radius 10 is 10. -/
theorem c3_witness : radiusCode 10 3 7 = 10 :=
  c3_radius_constant_on_nonneg 10 3 7 (by norm_num) (by norm_num) (by norm_num)

/-- Claim C6.  Show-all mode is the identity on the table: the script only
assigns `map_df = df.copy()` and never filters (lines 383-392). -/
theorem c6_show_all_identity :
    ∀ (t : Table) (col : ℕ), filterRain FilterMode.showAll col t = t :=
  fun _ _ => rfl

/-- Claim C8, counterexample.  When the image encoder is unavailable the
download section propagates the `write_image` failure: there is no HTML
fallback and no warning anywhere in `get_image_download_link` (lines 28-36) or
its callers. -/
theorem c8_counterexample :
    chartDownloadSection false "grafico_barras.png" =
      Except.error "write_image requires the kaleido package" := rfl

/-- Claim C8, amended.  For every chart filename, a PNG-encoding failure
propagates out of the chart download section as the original error; the code
performs no HTML-only degradation and emits no warning. -/
theorem c8_png_failure_propagates :
    ∀ (filename : String),
      chartDownloadSection false filename =
        Except.error "write_image requires the kaleido package" :=
  fun _ => rfl

/-- Claim C4 (code bug), failing-input evaluation.  On a table whose second
row has a missing latitude, the upload-time replace of line 74 turns the
missing marker into the string `"No especificado"`, so the `isna` probe of
lines 397-399 counts zero missing coordinates, the conditional `dropna` of
lines 401-404 never runs, the offending row is still present when markers are
built, and the whole render attempt then fails (the popup coordinate
formatting raises) instead of the row being excluded. -/
theorem c4_missing_coords_not_dropped :
    missingCount 0 (cleanTable tC4) = 0 ∧
    dropMissingCoords 0 1 (cleanTable tC4) = cleanTable tC4 ∧
    [Cell.str "No especificado", Cell.num (-99), Cell.num 7] ∈
      dropMissingCoords 0 1 (cleanTable tC4) ∧
    mapPipeline 0 1 2 0 FilterMode.showAll 10 tC4 = MapOutcome.renderFailed := by
  exact ⟨by decide, by decide, by decide, by decide⟩

/-- Claim C7.  When the rain filter empties the table, the pipeline reports
the explicit no-data state of lines 519-521 — zero matching rows and an error
message, not an exception. -/
theorem c7_empty_filter_reports_no_data :
    ∀ (df0 : Table) (latC lonC valC lluviaC : ℕ) (mode : FilterMode) (heatR : ℚ),
      filterRain mode lluviaC (cleanTable df0) = [] →
      mapPipeline latC lonC valC lluviaC mode heatR df0 = MapOutcome.noData ∧
      (filterRain mode lluviaC (cleanTable df0)).length = 0 := by
  intro df0 latC lonC valC lluviaC mode heatR h
  refine ⟨?_, by simp [h]⟩
  simp [mapPipeline, h]

/-- Claim C7, witness: a one-row table whose rain flag is `"No"` filters to
the empty table under rain-only mode and yields the no-data outcome. -/
theorem c7_witness :
    mapPipeline 1 2 3 0 FilterMode.rainOnly 10 [[Cell.str "No"]] = MapOutcome.noData ∧
    (filterRain FilterMode.rainOnly 0 (cleanTable [[Cell.str "No"]])).length = 0 :=
  c7_empty_filter_reports_no_data [[Cell.str "No"]] 1 2 3 0 FilterMode.rainOnly 10 (by decide)

/-- Claim C10.  After the upload-time replace of line 74, no cell of the
table is the missing marker, the empty string, or a `"nan"`/`"NaN"` spelling;
consequently the `isna` probe of any (existing) column counts zero missing
entries, so neither the coordinate `dropna` nor the rain filter ever observes
a missing value or empty string. -/
theorem c10_clean_removes_missing :
    ∀ (t : Table),
      (∀ r ∈ cleanTable t, ∀ c ∈ r,
          c ≠ Cell.missing ∧ c ≠ Cell.str "" ∧
          c ≠ Cell.str "nan" ∧ c ≠ Cell.str "NaN")
      ∧ (∀ col : ℕ, (∀ r ∈ cleanTable t, col < r.length) →
          missingCount col (cleanTable t) = 0) := by
  intro t
  have hcell : ∀ r ∈ cleanTable t, ∀ c ∈ r,
      c ≠ Cell.missing ∧ c ≠ Cell.str "" ∧
      c ≠ Cell.str "nan" ∧ c ≠ Cell.str "NaN" := by
    intro r hr c hc
    simp only [cleanTable, List.mem_map] at hr
    obtain ⟨r0, hr0, rfl⟩ := hr
    simp only [List.mem_map] at hc
    obtain ⟨c0, hc0, rfl⟩ := hc
    exact cleanCell_safe c0
  refine ⟨hcell, ?_⟩
  intro col hcol
  unfold missingCount
  rw [List.length_eq_zero, List.filter_eq_nil]
  intro r hr
  have hlen := hcol r hr
  have hmem : getCol r col ∈ r := by
    unfold getCol
    rw [List.getD_eq_getElem r Cell.missing hlen]
    exact List.getElem_mem hlen
  have hne := (hcell r hr (getCol r col) hmem).1
  cases hc : getCol r col with
  | missing => exact absurd hc hne
  | num q => simp [isMissingCell]
  | str s => simp [isMissingCell]

/-- Claim C10, witness: a concrete missing cell becomes `"No especificado"`
and the cleaned table has no missing entries in column 0. -/
theorem c10_witness :
    (Cell.str "No especificado" ≠ Cell.missing ∧
     Cell.str "No especificado" ≠ Cell.str "" ∧
     Cell.str "No especificado" ≠ Cell.str "nan" ∧
     Cell.str "No especificado" ≠ Cell.str "NaN") ∧
    missingCount 0 (cleanTable [[Cell.missing]]) = 0 :=
  ⟨(c10_clean_removes_missing [[Cell.missing]]).1 [Cell.str "No especificado"] (by decide)
      (Cell.str "No especificado") (by decide),
   (c10_clean_removes_missing [[Cell.missing]]).2 0 (by decide)⟩

/-- Claim C5, counterexample.  A filtered table with zero rows produces no map
at all — the pipeline lands in the explicit no-data error branch (lines
519-521), not in a map with a documented default center (none exists in the
code); and a filtered table with one valid coordinate row plus one row whose
latitude is a non-numeric string does not produce a map centered on the valid
coordinates either: the column mean raises and the render attempt fails. -/
theorem c5_counterexample :
    mapPipeline 1 2 3 0 FilterMode.rainOnly 10 tC5a = MapOutcome.noData ∧
    mapPipeline 0 1 2 9 FilterMode.showAll 10 tC5b = MapOutcome.renderFailed := by
  exact ⟨by decide, by decide⟩

/-- Claim C5, amended.  For every filtered table that is non-empty and whose
latitude and longitude columns are entirely numeric, the produced map's center
is the arithmetic mean of the latitude values and the arithmetic mean of the
longitude values; for a filtered table with zero rows, no map is produced: the
program reports the explicit no-data error state instead of raising (there is
no fixed default center). -/
theorem c5_center_is_mean :
    (∀ (df0 : Table) (latC lonC valC lluviaC : ℕ) (mode : FilterMode) (heatR : ℚ),
        filterRain mode lluviaC (cleanTable df0) ≠ [] →
        allNumCol latC (filterRain mode lluviaC (cleanTable df0)) = true →
        allNumCol lonC (filterRain mode lluviaC (cleanTable df0)) = true →
        ∃ ms, mapPipeline latC lonC valC lluviaC mode heatR df0 =
          MapOutcome.rendered
            (meanCol latC (filterRain mode lluviaC (cleanTable df0)))
            (meanCol lonC (filterRain mode lluviaC (cleanTable df0))) ms)
    ∧ (∀ (df0 : Table) (latC lonC valC lluviaC : ℕ) (mode : FilterMode) (heatR : ℚ),
        filterRain mode lluviaC (cleanTable df0) = [] →
        mapPipeline latC lonC valC lluviaC mode heatR df0 = MapOutcome.noData) := by
  constructor
  · intro df0 latC lonC valC lluviaC mode heatR hne hlat hlon
    have hdrop : dropMissingCoords latC lonC (filterRain mode lluviaC (cleanTable df0)) =
        filterRain mode lluviaC (cleanTable df0) := by
      unfold dropMissingCoords
      rw [missingCount_zero_of_allNum hlat, missingCount_zero_of_allNum hlon]
      simp
    obtain ⟨ms, hms⟩ := renderMarkers_some_of latC lonC valC heatR hlat hlon
    refine ⟨ms, ?_⟩
    simp only [mapPipeline]
    rw [isEmpty_false_of_ne hne]
    simp only [Bool.false_eq_true, if_false]
    rw [hdrop, colMean_of_allNum hlat hne, colMean_of_allNum hlon hne, hms]
  · intro df0 latC lonC valC lluviaC mode heatR h
    simp [mapPipeline, h]

/-- Claim C5, witness: a single-row table with numeric coordinates renders a
map centered on the means of its latitude and longitude columns. -/
theorem c5_witness :
    ∃ ms, mapPipeline 0 1 2 9 FilterMode.showAll 10
        [[Cell.num 1, Cell.num 2, Cell.num 3]] =
      MapOutcome.rendered
        (meanCol 0 (filterRain FilterMode.showAll 9
          (cleanTable [[Cell.num 1, Cell.num 2, Cell.num 3]])))
        (meanCol 1 (filterRain FilterMode.showAll 9
          (cleanTable [[Cell.num 1, Cell.num 2, Cell.num 3]]))) ms :=
  c5_center_is_mean.1 [[Cell.num 1, Cell.num 2, Cell.num 3]] 0 1 2 9
    FilterMode.showAll 10 (by decide) (by decide) (by decide)

/-- Reading the empty input yields one record holding the accumulated field. -/
theorem pUnq_nil (fa : List Char) (ra : List (List Char)) :
    pUnq [] fa ra = [(fa.reverse :: ra).reverse] := by
  conv_lhs => unfold pUnq

/-- A comma closes the current field. -/
theorem pUnq_comma (rest : List Char) (fa : List Char) (ra : List (List Char)) :
    pUnq (commaC :: rest) fa ra = pUnq rest [] (fa.reverse :: ra) := by
  conv_lhs => unfold pUnq
  simp

/-- A newline closes the current record. -/
theorem pUnq_nl (rest : List Char) (fa : List Char) (ra : List (List Char)) :
    pUnq (nlC :: rest) fa ra = (fa.reverse :: ra).reverse :: parseCsv rest := by
  conv_lhs => unfold pUnq
  have h1 : ¬(nlC = commaC) := by decide
  simp only [h1, if_false, if_pos rfl]
  cases rest with
  | nil => rfl
  | cons d rest2 => rfl

/-- A quote at field start opens a quoted field. -/
theorem pUnq_quote_start (rest : List Char) (ra : List (List Char)) :
    pUnq (quoteC :: rest) [] ra = pQ rest [] ra := by
  conv_lhs => unfold pUnq
  have h1 : ¬(quoteC = commaC) := by decide
  have h2 : ¬(quoteC = nlC) := by decide
  simp [h1, h2]

/-- Any other character is accumulated into the current bare field. -/
theorem pUnq_other (c : Char) (rest : List Char) (fa : List Char) (ra : List (List Char))
    (h1 : c ≠ commaC) (h2 : c ≠ nlC) (h3 : c ≠ quoteC) :
    pUnq (c :: rest) fa ra = pUnq rest (c :: fa) ra := by
  conv_lhs => unfold pUnq
  simp only [h1, h2, h3, if_false]

/-- Inside a quoted field, the empty input ends the record. -/
theorem pQ_nil (fa : List Char) (ra : List (List Char)) :
    pQ [] fa ra = [(fa.reverse :: ra).reverse] := by
  conv_lhs => unfold pQ

/-- A single quote (not followed by another quote) closes the quoted field. -/
theorem pQ_quote_close (rest : List Char) (fa : List Char) (ra : List (List Char))
    (h : headNotQuote rest) : pQ (quoteC :: rest) fa ra = pUnq rest fa ra := by
  conv_lhs => unfold pQ
  cases rest with
  | nil => simp [pUnq_nil]
  | cons c2 rest2 =>
    have h2 : ¬(c2 = quoteC) := h
    simp [h2]

/-- A doubled quote inside a quoted field is a literal quote. -/
theorem pQ_quote_pair (rest : List Char) (fa : List Char) (ra : List (List Char)) :
    pQ (quoteC :: quoteC :: rest) fa ra = pQ rest (quoteC :: fa) ra := by
  conv_lhs => unfold pQ
  simp

/-- Any other character inside a quoted field is literal. -/
theorem pQ_other (c : Char) (rest : List Char) (fa : List Char) (ra : List (List Char))
    (h : c ≠ quoteC) : pQ (c :: rest) fa ra = pQ rest (c :: fa) ra := by
  conv_lhs => unfold pQ
  simp [h]

/-- Consuming an unquoted field: a field with no special characters is read
verbatim into the accumulator. -/
theorem bare_consume (f : List Char) (hf : needsQuote f = false) :
    ∀ (rest fa : List Char) (ra : List (List Char)),
      pUnq (f ++ rest) fa ra = pUnq rest (f.reverse ++ fa) ra := by
  induction f with
  | nil => intro rest fa ra; simp
  | cons c f ih =>
    intro rest fa ra
    have hc : ¬(c = commaC || c = quoteC || c = nlC || c = crC) = true := by
      intro hcon
      rw [needsQuote, List.any_cons, hcon] at hf
      simp at hf
    simp only [Bool.or_eq_true, decide_eq_true_eq, not_or] at hc
    obtain ⟨⟨⟨h1, h2⟩, h3⟩, _⟩ := hc
    have hf2 : needsQuote f = false := by
      rw [needsQuote, List.any_cons] at hf
      exact (Bool.or_eq_false_iff.mp hf).2
    rw [List.cons_append, pUnq_other c _ fa ra h1 h3 h2, ih hf2]
    simp [List.reverse_cons, List.append_assoc]

/-- Consuming a quoted field body: the escaped body followed by the closing
quote restores the original field into the accumulator. -/
theorem quoted_consume (f : List Char) :
    ∀ (rest fa : List Char) (ra : List (List Char)), headNotQuote rest →
      pQ (escField f ++ (quoteC :: rest)) fa ra = pUnq rest (f.reverse ++ fa) ra := by
  induction f with
  | nil =>
    intro rest fa ra h
    simp only [escField, List.nil_append, List.reverse_nil]
    exact pQ_quote_close rest fa ra h
  | cons c f ih =>
    intro rest fa ra h
    by_cases hc : c = quoteC
    · subst hc
      rw [show escField (quoteC :: f) = quoteC :: quoteC :: escField f from by
        simp [escField]]
      rw [List.cons_append, List.cons_append, pQ_quote_pair, ih _ _ _ h]
      simp [List.reverse_cons, List.append_assoc]
    · simp only [escField, if_neg hc, List.cons_append]
      rw [pQ_other c _ _ _ hc, ih _ _ _ h]
      simp [List.reverse_cons, List.append_assoc]

/-- A comma is not a quote. -/
theorem headNotQuote_comma (rest : List Char) : headNotQuote (commaC :: rest) := by
  show commaC ≠ quoteC
  decide

/-- A newline is not a quote. -/
theorem headNotQuote_nl (rest : List Char) : headNotQuote (nlC :: rest) := by
  show nlC ≠ quoteC
  decide

/-- Consuming one rendered field (quoted or bare). -/
theorem field_consume (f : List Char) (rest : List Char) (ra : List (List Char))
    (h : headNotQuote rest) :
    pUnq (renderField f ++ rest) [] ra = pUnq rest f.reverse ra := by
  unfold renderField
  by_cases hq : needsQuote f = true
  · rw [if_pos hq, List.cons_append, pUnq_quote_start, List.append_assoc]
    have hsing : [quoteC] ++ rest = quoteC :: rest := rfl
    rw [hsing, quoted_consume f rest [] ra h]
    simp
  · rw [if_neg hq]
    rw [bare_consume f (by simpa using hq) rest [] ra]
    simp

/-- Consuming one rendered record up to and including its newline. -/
theorem fields_consume (fs : List (List Char)) :
    ∀ (f : List Char) (ra : List (List Char)) (rest2 : List Char),
      pUnq (renderFields (f :: fs) ++ (nlC :: rest2)) [] ra =
        (ra.reverse ++ (f :: fs)) :: parseCsv rest2 := by
  induction fs with
  | nil =>
    intro f ra rest2
    show pUnq (renderField f ++ (nlC :: rest2)) [] ra = _
    rw [field_consume f _ ra (headNotQuote_nl rest2), pUnq_nl]
    simp
  | cons g gs ih =>
    intro f ra rest2
    show pUnq ((renderField f ++ commaC :: renderFields (g :: gs)) ++ (nlC :: rest2)) [] ra = _
    rw [List.append_assoc, List.cons_append]
    rw [field_consume f _ ra (headNotQuote_comma _), pUnq_comma]
    rw [List.reverse_reverse]
    rw [ih g (f :: ra) rest2]
    simp

/-- The CSV reader is a left inverse of the CSV writer on record lists whose
records all have at least one field. -/
theorem parse_render (rows : List (List (List Char))) (h : ∀ r ∈ rows, r ≠ []) :
    parseCsv (renderCsv rows) = rows := by
  induction rows with
  | nil => rfl
  | cons r rs ih =>
    obtain ⟨f, fs, rfl⟩ : ∃ f fs, r = f :: fs := by
      cases r with
      | nil => exact absurd rfl (h [] (List.mem_cons_self _ _))
      | cons f fs => exact ⟨f, fs, rfl⟩
    show parseCsv ((renderFields (f :: fs) ++ [nlC]) ++ renderCsv rs) = _
    rw [List.append_assoc]
    have hcons : [nlC] ++ renderCsv rs = nlC :: renderCsv rs := rfl
    rw [hcons]
    have hne : renderFields (f :: fs) ++ (nlC :: renderCsv rs) ≠ [] := by simp
    have hP : parseCsv (renderFields (f :: fs) ++ (nlC :: renderCsv rs)) =
        pUnq (renderFields (f :: fs) ++ (nlC :: renderCsv rs)) [] [] := by
      cases he : renderFields (f :: fs) ++ (nlC :: renderCsv rs) with
      | nil => exact absurd he hne
      | cons a l2 => rfl
    rw [hP, fields_consume fs f [] (renderCsv rs)]
    rw [ih (fun x hx => h x (List.mem_cons_of_mem _ hx))]
    simp

/-- Claim C9.  Round trip: serializing a table (a non-empty header record and
data rows, every record having at least one field, as any exported `map_df`
does) to CSV and re-parsing the bytes recovers exactly the same header and the
same rows — in particular the same row count and the same cell values. -/
theorem c9_csv_round_trip :
    ∀ (header : List (List Char)) (rows : List (List (List Char))),
      header ≠ [] → (∀ r ∈ rows, r ≠ []) →
      tableOfCsv (csvOfTable header rows) = some (header, rows) := by
  intro header rows h1 h2
  have hall : ∀ r ∈ header :: rows, r ≠ [] := by
    intro r hr
    cases List.mem_cons.mp hr with
    | inl he => rw [he]; exact h1
    | inr hm => exact h2 r hm
  unfold tableOfCsv csvOfTable
  rw [parse_render (header :: rows) hall]

/-- Claim C9, witness: a concrete two-row table whose second cell contains a
comma (and is therefore quoted on export) round-trips exactly. -/
theorem c9_witness :
    tableOfCsv (csvOfTable [['v']] [[['1']], [['x', Char.ofNat 44, 'y']]]) =
      some ([['v']], [[['1']], [['x', Char.ofNat 44, 'y']]]) :=
  c9_csv_round_trip [['v']] [[['1']], [['x', Char.ofNat 44, 'y']]]
    (by decide) (by decide)
